import Mathlib

set_option maxHeartbeats 1000000
set_option maxRecDepth 4096

/-
Verification of the OpenCL conf loader (OpenClConfLoader.cpp) against its
natural-language specification.  The C++ translation unit is embedded
shallowly below: every pure computation of the source file becomes a Lean
function, the filesystem existence check becomes an explicit predicate
`fs : String → Bool`, and the two plugin-registry writes plus the thrown
exceptions become the explicit result of the loader.  Behavior of external
libraries (Poco paths, C++ stream extraction) is modelled where the source
calls into them, with the model documented on each definition.
-/

/-- Configuration map handed to the conf loader; models the
std::map<std::string, std::string> argument of OpenClConfLoader. -/
def Config : Type := List (String × String)

/-- Key lookup, modelling config.find(key): the value of the first entry
with the given key, if any. -/
def Config.find (cfg : Config) (key : String) : Option String :=
  (List.find? (fun kv => kv.1 == key) cfg).map (fun kv => kv.2)

/-- Split a character list into fields at every separator character,
keeping empty fields; the running accumulator holds the current field
reversed. -/
def splitFieldsAux (sep : Char → Bool) : List Char → List Char → List (List Char)
  | [], acc => [acc.reverse]
  | c :: rest, acc =>
    if sep c then acc.reverse :: splitFieldsAux sep rest []
    else splitFieldsAux sep rest (c :: acc)

/-- Is the character ASCII whitespace (the set Poco's trim removes)? -/
def isPocoSpace (c : Char) : Bool :=
  c == ' ' || c == '\t' || c == '\n' || c == '\r' || c == '\x0b' || c == '\x0c'

/-- Remove leading and trailing whitespace from a character list. -/
def trimChars (l : List Char) : List Char :=
  ((l.dropWhile isPocoSpace).reverse.dropWhile isPocoSpace).reverse

/-- Source function stringTokenizerToVector applied to
Poco::StringTokenizer(value, " \t", TOK_IGNORE_EMPTY | TOK_TRIM):
split on each space or tab, trim surrounding whitespace from every token,
and drop the empty tokens. -/
def stringTokenizerToVector (s : String) : List String :=
  (((splitFieldsAux (fun c => c == ' ' || c == '\t') s.data []).map trimChars).filter
    (fun t => !(t.isEmpty))).map (fun t => String.mk t)

/-- Characters of a path up to and including its last '/', empty when there
is no '/'. Helper for the Poco path model. -/
def dirPrefixAux : List Char → List Char
  | [] => []
  | c :: rest =>
    match rest.contains '/' with
    | true => c :: dirPrefixAux rest
    | false => if c == '/' then ['/'] else []

/-- Model of Poco::Path(p).makeParent() rendered as a string: the directory
part of p, up to and including the final '/' (empty for a bare file name).
Poco is an external library; the model assumes a Unix-style path that does
not itself end in '/', which is how the framework supplies confFilePath. -/
def pathMakeParent (p : String) : String := String.mk (dirPrefixAux p.data)

/-- Model of Poco::Path(rootDir, fileName).toString() as used on line 294 of
the source: Poco's parent/fileName constructor stores the file name verbatim
after the parent directory, so rendering concatenates the two. -/
def resolveSource (confFilePath sourceVal : String) : String :=
  pathMakeParent confFilePath ++ sourceVal

/-- Characters after the last '/' of a path. Helper for the Poco model. -/
def fileNameAux (l : List Char) : List Char :=
  (l.reverse.takeWhile (fun c => !(c == '/'))).reverse

/-- Characters with the part from the last '.' onwards removed, when a '.'
is present. Helper for the Poco model. -/
def stripExtAux (l : List Char) : List Char :=
  if l.contains '.' then ((l.reverse.dropWhile (fun c => !(c == '.'))).drop 1).reverse else l

/-- Model of Poco::Path(p).getBaseName(): the file name of p without its
last extension (used for the default category on line 342). -/
def pathGetBaseName (p : String) : String := String.mk (stripExtAux (fileNameAux p.data))

/-- Value of a decimal digit run, most significant first. -/
def digitsToNat (ds : List Char) : Nat :=
  ds.foldl (fun acc c => acc * 10 + (c.toNat - '0'.toNat)) 0

/-- One beyond the largest 64-bit size_t value. -/
def SIZE_T_MOD : Nat := 18446744073709551616

/-- Source function convertString<size_t> (lines 259-268): a bare
`std::stringstream >> ret` with no error check.  Model of the C++ stream
extraction on a 64-bit size_t: skip leading whitespace, accept an optional
sign, read a run of decimal digits; an extraction that finds no digits
stores 0 (C++11), an out-of-range value stores the maximum, and an in-range
negative value wraps modulo 2^64.  No failure is ever reported. -/
def convertString (s : String) : Nat :=
  let l := s.data.dropWhile (fun c =>
    c == ' ' || c == '\t' || c == '\n' || c == '\r' || c == '\x0b' || c == '\x0c')
  let signed : Bool × List Char :=
    match l with
    | '-' :: r => (true, r)
    | '+' :: r => (false, r)
    | _ => (false, l)
  let ds := signed.2.takeWhile Char.isDigit
  if ds.isEmpty then 0
  else
    let n := digitsToNat ds
    if SIZE_T_MOD ≤ n then SIZE_T_MOD - 1
    else if signed.1 then (SIZE_T_MOD - n) % SIZE_T_MOD
    else n

/-- Source struct FactoryArgs (lines 25-37). The three optional tunables are
size_t in the source, so they are natural numbers here. -/
structure FactoryArgs where
  source : String
  kernelName : String
  inputTypes : List String
  outputTypes : List String
  optLocalSize : Option Nat
  optGlobalFactor : Option Nat
  optProductionFactor : Option Nat
deriving DecidableEq

/-- Source struct BlockDescriptionArgs (lines 39-48). -/
structure BlockDescriptionArgs where
  blockName : String
  categories : List String
  optDescription : Option String
  optKeywords : Option (List String)
deriving DecidableEq

/-- The canned localSize parameter block (source lines 117-120). -/
def LOCAL_SIZE_DESCRIPTION : String :=
  " * |param localSize[Local Size] The number of work units/resources to allocate. \n * This controls the parallelism of the kernel execution. \n * |default 2 \n"

/-- The canned localSize setter line (source lines 122-123). -/
def LOCAL_SIZE_SETTER : String := " * |setter setLocalSize(localSize) \n"

/-- The canned globalFactor parameter block (source lines 134-138); note the
source spells "iterarions". -/
def GLOBAL_FACTOR_DESCRIPTION : String :=
  " * |param globalFactor[Global Factor] This factor controls the global size. \n * The global size is the number of kernel iterarions per call. \n * Global size = number of input elements * global factor. \n * |default 1.0 \n"

/-- The canned globalFactor setter line (source lines 140-141). -/
def GLOBAL_FACTOR_SETTER : String := " * |setter setGlobalFactor(globalFactor) \n"

/-- The canned productionFactor parameter block (source lines 152-155). -/
def PRODUCTION_FACTOR_DESCRIPTION : String :=
  " * |param productionFactor[Production Factor] This factor controls the elements produced. \n * For each call to work, elements produced = number of input elements * production factor. \n * |default 1.0 \n"

/-- The canned productionFactor setter line (source lines 157-158, which end
without a space before the newline). -/
def PRODUCTION_FACTOR_SETTER : String := " * |setter setProductionFactor(productionFactor)\n"

/-- Source function generateLocalSizeStrings (lines 112-127): the pair
(description, setter), both empty exactly when the tunable is pre-bound. -/
def generateLocalSizeStrings (optLocalSize : Option Nat) : String × String :=
  (if optLocalSize.isSome then "" else LOCAL_SIZE_DESCRIPTION,
   if optLocalSize.isSome then "" else LOCAL_SIZE_SETTER)

/-- Source function generateGlobalFactorStrings (lines 129-145). -/
def generateGlobalFactorStrings (optGlobalFactor : Option Nat) : String × String :=
  (if optGlobalFactor.isSome then "" else GLOBAL_FACTOR_DESCRIPTION,
   if optGlobalFactor.isSome then "" else GLOBAL_FACTOR_SETTER)

/-- Source function generateProductionFactorStrings (lines 147-162). -/
def generateProductionFactorStrings (optProductionFactor : Option Nat) : String × String :=
  (if optProductionFactor.isSome then "" else PRODUCTION_FACTOR_DESCRIPTION,
   if optProductionFactor.isSome then "" else PRODUCTION_FACTOR_SETTER)

/-- Source function generateParamsAndSetters (lines 165-201): the three
parameter blocks concatenated, and the three setter lines concatenated,
in the fixed local/global/production order. -/
def generateParamsAndSetters (fa : FactoryArgs) : String × String :=
  ((generateLocalSizeStrings fa.optLocalSize).1
     ++ (generateGlobalFactorStrings fa.optGlobalFactor).1
     ++ (generateProductionFactorStrings fa.optProductionFactor).1,
   (generateLocalSizeStrings fa.optLocalSize).2
     ++ (generateGlobalFactorStrings fa.optGlobalFactor).2
     ++ (generateProductionFactorStrings fa.optProductionFactor).2)

/-- Concatenation of a list of strings, in order (models repeated +=). -/
def concatStrs : List String → String
  | [] => ""
  | s :: rest => s ++ concatStrs rest

/-- The `|category` lines of the block description (source lines 226-230). -/
def categoryLines (categories : List String) : String :=
  concatStrs (categories.map (fun c => " * |category " ++ c ++ "\n"))

/-- The `|keyword` lines of the block description (source lines 232-239). -/
def keywordLines (optKeywords : Option (List String)) : String :=
  match optKeywords with
  | some ks => concatStrs (ks.map (fun k => " * |keyword " ++ k ++ "\n"))
  | none => ""

/-- Opening of the FORMAT template up to the block name (source lines 208-210). -/
def DOC_HEADER : String :=
  "/***********************************************************************\n * |PothosDoc "

/-- The fixed deviceId parameter block of the FORMAT template (lines 215-219). -/
def DEVICE_ID_PARAM : String :=
  " * |param deviceId[Device ID] A markup to specify OpenCL platform and device. \n * The markup takes the format [platform index]:[device index] \n * The platform index represents a platform ID found in clGetPlatformIDs(). \n * The device index represents a device ID found in clGetDeviceIDs(). \n * |default \"0:0\" \n"

/-- Closing line of the FORMAT template (source line 224). -/
def DOC_FOOTER : String :=
  " **********************************************************************/"

/-- Source function generateBlockDescription (lines 203-257): the FORMAT
template with the seven %s placeholders substituted in order (block name,
description defaulting to empty, category lines, keyword lines, parameter
blocks, factory path, setter lines). -/
def generateBlockDescription (fa : FactoryArgs) (bda : BlockDescriptionArgs)
    (factory : String) : String :=
  DOC_HEADER ++ bda.blockName ++ " \n * " ++ bda.optDescription.getD "" ++ "\n"
    ++ categoryLines bda.categories ++ "\n" ++ keywordLines bda.optKeywords ++ "\n *\n"
    ++ DEVICE_ID_PARAM ++ " *\n" ++ (generateParamsAndSetters fa).1
    ++ "\n * |factory " ++ factory ++ "(deviceId) \n"
    ++ (generateParamsAndSetters fa).2 ++ "\n" ++ DOC_FOOTER

/-- A positional argument of the registered factory closure; models a
Pothos::Object, which is either an arbitrary user-supplied argument or one
of the two appended vector<string> objects. -/
inductive PObj where
  | user (tag : Nat)
  | strVec (v : List String)
deriving DecidableEq

/-- A method invocation performed on the freshly constructed block. -/
inductive BlockCall where
  | setName (name : String)
  | setSource (kernelName source : String)
  | setLocalSize (n : Nat)
  | setGlobalFactor (n : Nat)
  | setProductionFactor (n : Nat)
deriving DecidableEq

/-- Observable behavior of one invocation of the factory closure: which
registry entry it resolved, the argument list it passed to the generic
OpenCL block factory, and the method calls made on the resulting block. -/
structure BlockFactoryResult where
  genericFactoryPath : String
  genericFactoryArgs : List PObj
  calls : List BlockCall
deriving DecidableEq

/-- Source function opaqueOpenClBlockFactory (lines 50-94): appends the
configured input and output type vectors after the user arguments, calls
the generic factory at "/blocks/blocks/opencl_kernel", names the block
after the factory path, installs the kernel source, and applies each
pre-bound tunable in the fixed local/global/production order. -/
def openClBlockFactory (factory : String) (fa : FactoryArgs) (args : List PObj) :
    BlockFactoryResult :=
  { genericFactoryPath := "/blocks/blocks/opencl_kernel"
    genericFactoryArgs := args ++ [PObj.strVec fa.inputTypes, PObj.strVec fa.outputTypes]
    calls :=
      [BlockCall.setName factory, BlockCall.setSource fa.kernelName fa.source]
        ++ (match fa.optLocalSize with
            | some n => [BlockCall.setLocalSize n]
            | none => [])
        ++ (match fa.optGlobalFactor with
            | some n => [BlockCall.setGlobalFactor n]
            | none => [])
        ++ (match fa.optProductionFactor with
            | some n => [BlockCall.setProductionFactor n]
            | none => []) }

/-- An exception thrown by the loader: either a plain Pothos::Exception with
its message, or a Pothos::FileNotFoundException naming a path. -/
inductive LoaderError where
  | exception (msg : String)
  | fileNotFound (path : String)
deriving DecidableEq

/-- Payload of a plugin-registry write: the factory callable with its bound
arguments (PluginRegistry::addCall) or the parsed documentation object,
identified here by the description text it was parsed from
(PluginRegistry::add of parser.getJSONObject). -/
inductive RegistryPayload where
  | call (factory : String) (fa : FactoryArgs)
  | doc (description : String)
deriving DecidableEq

/-- One write into the process-wide plugin registry. -/
structure RegistryWrite where
  path : String
  payload : RegistryPayload
deriving DecidableEq

/-- Successful outcome of the loader: the returned plugin path list together
with the intermediate values the registration was computed from. -/
structure LoaderOk where
  paths : List String
  factoryArgs : FactoryArgs
  blockDescriptionArgs : BlockDescriptionArgs
  factory : String
  blockDescription : String
deriving DecidableEq

/-- Display name of the block (source lines 334-335): the block_name value
when present, otherwise the kernel name. -/
def blockNameOf (cfg : Config) (kernelName : String) : String :=
  (cfg.find "block_name").getD kernelName

/-- Categories metadata (source lines 337-342).  When the categories key is
present the source tokenizes outputTypesIter->second - the output_types
value, not the categories value - and the embedding preserves that; when it
is absent the default is the base name of the resolved source path. -/
def categoriesOf (cfg : Config) (outputTypesVal sourcePath : String) : List String :=
  match cfg.find "categories" with
  | some _ => stringTokenizerToVector outputTypesVal
  | none => [pathGetBaseName sourcePath]

/-- Keywords metadata (source lines 344-348).  As with the categories, the
source tokenizes the output_types value when the keywords key is present. -/
def keywordsOf (cfg : Config) (outputTypesVal : String) : Option (List String) :=
  (cfg.find "keywords").map (fun _ => stringTokenizerToVector outputTypesVal)

/-- Source function OpenClConfLoader (lines 274-384).  `fs` models the
Poco::File(...).exists() filesystem check.  The result pairs the registry
writes performed, in order, with either the thrown exception or the
returned plugin path list (and the values it was computed from).  Every
throw in the source precedes both registry writes, which the embedding
reflects by pairing every error with an empty write list. -/
def OpenClConfLoader (fs : String → Bool) (cfg : Config) :
    List RegistryWrite × Except LoaderError LoaderOk :=
  match cfg.find "confFilePath" with
  | none => ([], Except.error (LoaderError.exception "No conf filepath"))
  | some confFilePath =>
    match cfg.find "source" with
    | none => ([], Except.error (LoaderError.exception "No source"))
    | some sourceVal =>
      let source := resolveSource confFilePath sourceVal
      if fs source = true then
        match cfg.find "kernel_name" with
        | none => ([], Except.error (LoaderError.exception "No kernel name"))
        | some kernelName =>
          match cfg.find "input_types" with
          | none => ([], Except.error (LoaderError.exception "No input types"))
          | some inputTypesVal =>
            match cfg.find "output_types" with
            | none => ([], Except.error (LoaderError.exception "No output types"))
            | some outputTypesVal =>
              let fa : FactoryArgs :=
                { source := source
                  kernelName := kernelName
                  inputTypes := stringTokenizerToVector inputTypesVal
                  outputTypes := stringTokenizerToVector outputTypesVal
                  optLocalSize := (cfg.find "local_size").map convertString
                  optGlobalFactor := (cfg.find "global_factor").map convertString
                  optProductionFactor := (cfg.find "production_factor").map convertString }
              let bda : BlockDescriptionArgs :=
                { blockName := blockNameOf cfg kernelName
                  categories := categoriesOf cfg outputTypesVal source
                  optDescription := cfg.find "description"
                  optKeywords := keywordsOf cfg outputTypesVal }
              match cfg.find "factory" with
              | none => ([], Except.error (LoaderError.exception "No factory"))
              | some factory =>
                let desc := generateBlockDescription fa bda factory
                ([{ path := "/blocks" ++ factory, payload := RegistryPayload.call factory fa },
                  { path := "/blocks/docs" ++ factory, payload := RegistryPayload.doc desc }],
                 Except.ok
                   { paths := ["/blocks" ++ factory, "/blocks/docs" ++ factory]
                     factoryArgs := fa
                     blockDescriptionArgs := bda
                     factory := factory
                     blockDescription := desc })
      else ([], Except.error (LoaderError.fileNotFound source))

/-- The registry writes the loader performed. -/
def loaderWrites (fs : String → Bool) (cfg : Config) : List RegistryWrite :=
  (OpenClConfLoader fs cfg).1

/-- Whether the loader returned normally. -/
def loaderSucceeded (fs : String → Bool) (cfg : Config) : Bool :=
  match (OpenClConfLoader fs cfg).2 with
  | Except.ok _ => true
  | Except.error _ => false

/-- The plugin path list the loader returned (empty when it threw). -/
def loaderPaths (fs : String → Bool) (cfg : Config) : List String :=
  match (OpenClConfLoader fs cfg).2 with
  | Except.ok r => r.paths
  | Except.error _ => []

/-- The FactoryArgs the loader captured in the registered closure (a blank
record when it threw). -/
def loaderFa (fs : String → Bool) (cfg : Config) : FactoryArgs :=
  match (OpenClConfLoader fs cfg).2 with
  | Except.ok r => r.factoryArgs
  | Except.error _ => { source := "", kernelName := "", inputTypes := [], outputTypes := [],
                        optLocalSize := none, optGlobalFactor := none, optProductionFactor := none }

/-- The BlockDescriptionArgs the loader derived (blank when it threw). -/
def loaderBda (fs : String → Bool) (cfg : Config) : BlockDescriptionArgs :=
  match (OpenClConfLoader fs cfg).2 with
  | Except.ok r => r.blockDescriptionArgs
  | Except.error _ => { blockName := "", categories := [], optDescription := none, optKeywords := none }

/-- The synthesized block documentation (empty when the loader threw). -/
def loaderDoc (fs : String → Bool) (cfg : Config) : String :=
  match (OpenClConfLoader fs cfg).2 with
  | Except.ok r => r.blockDescription
  | Except.error _ => ""

/-- A filesystem in which exactly the file /p/k.cl exists. -/
def fsP : String → Bool := fun p => p == "/p/k.cl"

/-- The minimal valid configuration of spec scenario A. -/
def cfgMin : Config :=
  [("confFilePath", "/p/x.conf"), ("source", "k.cl"), ("kernel_name", "run"),
   ("input_types", "float32"), ("output_types", "float32"), ("factory", "/my/k")]

deriving instance DecidableEq for Except

/-- Boolean test: is the first list a prefix of the second? -/
def isPrefixB : List Char → List Char → Bool
  | [], _ => true
  | _ :: _, [] => false
  | a :: as, b :: bs => a == b && isPrefixB as bs

/-- Boolean substring test: does some suffix of the second list start with
the pattern? -/
def containsB (pat : List Char) : List Char → Bool
  | [] => isPrefixB pat []
  | c :: rest => isPrefixB pat (c :: rest) || containsB pat rest

/-- Does the string s contain pat as a contiguous substring? -/
def strContains (s pat : String) : Bool := containsB pat.data s.data

/-- True when the string avoids the '|' directive character entirely. -/
def barFree (s : String) : Bool := s.data.all (fun c => !(c == '|'))

/-- A list is a prefix of itself followed by anything. -/
theorem isPrefixB_append_self (p t : List Char) : isPrefixB p (p ++ t) = true := by
  induction p with
  | nil => rfl
  | cons a as ih => simp [isPrefixB, ih]

/-- Extending the larger list on the right preserves the prefix test. -/
theorem isPrefixB_mono {p a : List Char} (t : List Char) (h : isPrefixB p a = true) :
    isPrefixB p (a ++ t) = true := by
  induction p generalizing a with
  | nil => rfl
  | cons x xs ih =>
    cases a with
    | nil => simp [isPrefixB] at h
    | cons b bs =>
      simp only [isPrefixB, Bool.and_eq_true, beq_iff_eq] at h
      simp only [List.cons_append, isPrefixB, Bool.and_eq_true, beq_iff_eq]
      exact ⟨h.1, ih h.2⟩

/-- The empty pattern is contained in every list. -/
theorem containsB_nil (l : List Char) : containsB [] l = true := by
  cases l with
  | nil => rfl
  | cons c rest => simp [containsB, isPrefixB]

/-- Prepending to the searched list preserves containment. -/
theorem containsB_append_right {p b : List Char} (a : List Char) (h : containsB p b = true) :
    containsB p (a ++ b) = true := by
  induction a with
  | nil => simpa using h
  | cons x xs ih =>
    simp only [List.cons_append, containsB, Bool.or_eq_true]
    exact Or.inr ih

/-- Appending to the searched list preserves containment. -/
theorem containsB_append_left {p a : List Char} (b : List Char) (h : containsB p a = true) :
    containsB p (a ++ b) = true := by
  induction a with
  | nil =>
    cases p with
    | nil => exact containsB_nil b
    | cons x xs => simp [containsB, isPrefixB] at h
  | cons x xs ih =>
    simp only [containsB, Bool.or_eq_true] at h
    simp only [List.cons_append, containsB, Bool.or_eq_true]
    rcases h with h | h
    · exact Or.inl (by simpa using isPrefixB_mono (a := x :: xs) b h)
    · exact Or.inr (ih h)

/-- A list contains any of its own prefixes. -/
theorem containsB_self_append (p t : List Char) : containsB p (p ++ t) = true := by
  cases p with
  | nil => exact containsB_nil t
  | cons x xs =>
    simp only [List.cons_append, containsB, Bool.or_eq_true]
    exact Or.inl (by simpa using isPrefixB_append_self (x :: xs) t)

/-- Boolean test that q disagrees with the second list at some position that
lies inside the second list. -/
def mismatchWithin : List Char → List Char → Bool
  | [], _ => false
  | _ :: _, [] => false
  | a :: as, b :: bs => !(a == b) || mismatchWithin as bs

/-- A recorded mismatch refutes the prefix test. -/
theorem mismatchWithin_refutesPre {q l : List Char} (h : mismatchWithin q l = true) :
    isPrefixB q l = false := by
  induction q generalizing l with
  | nil => simp [mismatchWithin] at h
  | cons a as ih =>
    cases l with
    | nil => simp [mismatchWithin] at h
    | cons b bs =>
      simp only [mismatchWithin, Bool.or_eq_true, Bool.not_eq_true'] at h
      simp only [isPrefixB, Bool.and_eq_false_iff]
      rcases h with h | h
      · exact Or.inl h
      · exact Or.inr (ih h)

/-- A mismatch inside a list survives extending the list on the right. -/
theorem mismatchWithin_append {q l : List Char} (m : List Char) (h : mismatchWithin q l = true) :
    mismatchWithin q (l ++ m) = true := by
  induction q generalizing l with
  | nil => simp [mismatchWithin] at h
  | cons a as ih =>
    cases l with
    | nil => simp [mismatchWithin] at h
    | cons b bs =>
      simp only [mismatchWithin, Bool.or_eq_true] at h
      simp only [List.cons_append, mismatchWithin, Bool.or_eq_true]
      rcases h with h | h
      · exact Or.inl h
      · exact Or.inr (ih h)

/-- Every '|' in the list is followed, inside the list itself, by a
disagreement with q.  Such a list cannot contain the pattern '|' :: q, and
the property is stable under concatenation. -/
def barsRefute (q : List Char) : List Char → Bool
  | [] => true
  | c :: rest => (!(c == '|') || mismatchWithin q rest) && barsRefute q rest

/-- A list whose bars all refute q does not contain '|' :: q. -/
theorem barsRefute_not_contains {q l : List Char} (h : barsRefute q l = true) :
    containsB ('|' :: q) l = false := by
  induction l with
  | nil => rfl
  | cons c rest ih =>
    simp only [barsRefute, Bool.and_eq_true, Bool.or_eq_true, Bool.not_eq_true'] at h
    have h2 : containsB ('|' :: q) rest = false := ih h.2
    have h1 : isPrefixB ('|' :: q) (c :: rest) = false := by
      rcases h.1 with h1 | h1
      · have hc : ('|' == c) = false :=
          beq_eq_false_iff_ne.mpr (Ne.symm (beq_eq_false_iff_ne.mp h1))
        simp [isPrefixB, hc]
      · simp [isPrefixB, mismatchWithin_refutesPre h1]
    simp [containsB, h1, h2]

/-- Bar refutation is preserved by concatenation. -/
theorem barsRefute_append {q a b : List Char} (ha : barsRefute q a = true)
    (hb : barsRefute q b = true) : barsRefute q (a ++ b) = true := by
  induction a with
  | nil => simpa using hb
  | cons c rest ih =>
    simp only [barsRefute, Bool.and_eq_true, Bool.or_eq_true, Bool.not_eq_true'] at ha
    simp only [List.cons_append, barsRefute, Bool.and_eq_true, Bool.or_eq_true,
      Bool.not_eq_true']
    refine ⟨?_, ih ha.2⟩
    rcases ha.1 with h1 | h1
    · exact Or.inl h1
    · exact Or.inr (mismatchWithin_append b h1)

/-- A list with no bar at all refutes every q. -/
theorem barsRefute_of_noBar {q l : List Char} (h : l.all (fun c => !(c == '|')) = true) :
    barsRefute q l = true := by
  induction l with
  | nil => rfl
  | cons c rest ih =>
    simp only [List.all_cons, Bool.and_eq_true, Bool.not_eq_true'] at h
    simp only [barsRefute, Bool.and_eq_true, Bool.or_eq_true, Bool.not_eq_true']
    exact ⟨Or.inl h.1, ih h.2⟩

/-- A bar-free string refutes every q. -/
theorem barsRefute_of_barFree {q : List Char} {s : String} (h : barFree s = true) :
    barsRefute q s.data = true := barsRefute_of_noBar h

/-- A bar-free string refutes every q (stated on the raw all-test). -/
theorem barsRefute_str (q : List Char) (s : String)
    (h : s.data.all (fun c => !(c == '|')) = true) : barsRefute q s.data = true :=
  barsRefute_of_noBar h

/-- Tagged metadata lines (one bar-free token per line behind a fixed
prefix) refute q whenever the prefix does. -/
theorem barsRefute_lines (q : List Char) (pre : String)
    (hpre : barsRefute q pre.data = true) :
    ∀ l : List String, l.all barFree = true →
      barsRefute q (concatStrs (l.map (fun c => pre ++ c ++ "\n"))).data = true := by
  intro l
  induction l with
  | nil => intro _; rfl
  | cons x xs ih =>
    intro hl
    simp only [List.all_cons, Bool.and_eq_true] at hl
    show barsRefute q
      ((pre ++ x ++ "\n") ++ concatStrs (xs.map (fun c => pre ++ c ++ "\n"))).data = true
    rw [String.data_append, String.data_append, String.data_append]
    exact barsRefute_append
      (barsRefute_append (barsRefute_append hpre (barsRefute_of_barFree hl.1))
        (barsRefute_str q "\n" (by decide)))
      (ih hl.2)

/-- The category lines refute q when every category token is bar-free. -/
theorem barsRefute_categoryLines (q : List Char) (cats : List String)
    (hpre : barsRefute q (" * |category " : String).data = true)
    (h : cats.all barFree = true) :
    barsRefute q (categoryLines cats).data = true :=
  barsRefute_lines q " * |category " hpre cats h

/-- The keyword lines refute q when every keyword token is bar-free. -/
theorem barsRefute_keywordLines (q : List Char) (okws : Option (List String))
    (hpre : barsRefute q (" * |keyword " : String).data = true)
    (h : (okws.getD []).all barFree = true) :
    barsRefute q (keywordLines okws).data = true := by
  cases okws with
  | none => rfl
  | some ks => exact barsRefute_lines q " * |keyword " hpre ks (by simpa using h)

/-- A tunable fragment (empty or its canned text) refutes q whenever the
canned text does. -/
theorem barsRefute_opt (q : List Char) (b : Bool) (s : String)
    (hs : barsRefute q s.data = true) :
    barsRefute q (if b then "" else s).data = true := by
  cases b
  · simpa using hs
  · rfl

/-- When every user-controlled fragment of the block description is
bar-free, the fixed skeleton refutes q, and the parameter and setter
sections refute q, the whole description refutes q. -/
theorem doc_barsRefute (q : List Char) (fa : FactoryArgs) (bda : BlockDescriptionArgs)
    (factory : String)
    (hname : barFree bda.blockName = true)
    (hdesc : barFree (bda.optDescription.getD "") = true)
    (hcats : bda.categories.all barFree = true)
    (hkws : ((bda.optKeywords.getD []).all barFree) = true)
    (hfac : barFree factory = true)
    (hhdr : barsRefute q DOC_HEADER.data = true)
    (hdev : barsRefute q DEVICE_ID_PARAM.data = true)
    (hcatpre : barsRefute q (" * |category " : String).data = true)
    (hkwpre : barsRefute q (" * |keyword " : String).data = true)
    (hfacpre : barsRefute q ("\n * |factory " : String).data = true)
    (hp : barsRefute q (generateParamsAndSetters fa).1.data = true)
    (hs : barsRefute q (generateParamsAndSetters fa).2.data = true) :
    barsRefute q (generateBlockDescription fa bda factory).data = true := by
  simp only [generateBlockDescription, String.data_append]
  have e01 := barsRefute_append hhdr (barsRefute_of_barFree hname (q := q))
  have e02 := barsRefute_append e01 (barsRefute_str q " \n * " (by decide))
  have e03 := barsRefute_append e02 (barsRefute_of_barFree hdesc (q := q))
  have e04 := barsRefute_append e03 (barsRefute_str q "\n" (by decide))
  have e05 := barsRefute_append e04 (barsRefute_categoryLines q bda.categories hcatpre hcats)
  have e06 := barsRefute_append e05 (barsRefute_str q "\n" (by decide))
  have e07 := barsRefute_append e06 (barsRefute_keywordLines q bda.optKeywords hkwpre hkws)
  have e08 := barsRefute_append e07 (barsRefute_str q "\n *\n" (by decide))
  have e09 := barsRefute_append e08 hdev
  have e10 := barsRefute_append e09 (barsRefute_str q " *\n" (by decide))
  have e11 := barsRefute_append e10 hp
  have e12 := barsRefute_append e11 hfacpre
  have e13 := barsRefute_append e12 (barsRefute_of_barFree hfac (q := q))
  have e14 := barsRefute_append e13 (barsRefute_str q "(deviceId) \n" (by decide))
  have e15 := barsRefute_append e14 hs
  have e16 := barsRefute_append e15 (barsRefute_str q "\n" (by decide))
  have e17 := barsRefute_append e16 (barsRefute_str q DOC_FOOTER (by decide))
  exact e17

/-- Containment in the parameter section lifts to the whole description. -/
theorem contains_doc_of_params {p : List Char} (fa : FactoryArgs)
    (bda : BlockDescriptionArgs) (factory : String)
    (h : containsB p (generateParamsAndSetters fa).1.data = true) :
    containsB p (generateBlockDescription fa bda factory).data = true := by
  simp only [generateBlockDescription, String.data_append]
  exact containsB_append_left _ (containsB_append_left _ (containsB_append_left _
    (containsB_append_left _ (containsB_append_left _ (containsB_append_left _
      (containsB_append_right _ h))))))

/-- Containment in the setter section lifts to the whole description. -/
theorem contains_doc_of_setters {p : List Char} (fa : FactoryArgs)
    (bda : BlockDescriptionArgs) (factory : String)
    (h : containsB p (generateParamsAndSetters fa).2.data = true) :
    containsB p (generateBlockDescription fa bda factory).data = true := by
  simp only [generateBlockDescription, String.data_append]
  exact containsB_append_left _ (containsB_append_left _ (containsB_append_right _ h))

/-- A list contains itself. -/
theorem containsB_refl (p : List Char) : containsB p p = true := by
  have := containsB_self_append p []
  simpa using this

/-- Value of generateLocalSizeStrings on an absent tunable. -/
theorem genLS_none (o : Option Nat) (h : o = none) :
    generateLocalSizeStrings o = (LOCAL_SIZE_DESCRIPTION, LOCAL_SIZE_SETTER) := by
  subst h; rfl

/-- Value of generateLocalSizeStrings on a present tunable. -/
theorem genLS_some (o : Option Nat) (n : Nat) (h : o = some n) :
    generateLocalSizeStrings o = ("", "") := by
  subst h; rfl

/-- Value of generateGlobalFactorStrings on an absent tunable. -/
theorem genGF_none (o : Option Nat) (h : o = none) :
    generateGlobalFactorStrings o = (GLOBAL_FACTOR_DESCRIPTION, GLOBAL_FACTOR_SETTER) := by
  subst h; rfl

/-- Value of generateGlobalFactorStrings on a present tunable. -/
theorem genGF_some (o : Option Nat) (n : Nat) (h : o = some n) :
    generateGlobalFactorStrings o = ("", "") := by
  subst h; rfl

/-- Value of generateProductionFactorStrings on an absent tunable. -/
theorem genPF_none (o : Option Nat) (h : o = none) :
    generateProductionFactorStrings o = (PRODUCTION_FACTOR_DESCRIPTION, PRODUCTION_FACTOR_SETTER) := by
  subst h; rfl

/-- Value of generateProductionFactorStrings on a present tunable. -/
theorem genPF_some (o : Option Nat) (n : Nat) (h : o = some n) :
    generateProductionFactorStrings o = ("", "") := by
  subst h; rfl

/-- With localSize pre-bound and bar-free metadata, the "|param localSize"
marker does not occur in the description. -/
theorem lsParam_not_in_doc (fa : FactoryArgs) (bda : BlockDescriptionArgs) (factory : String)
    (hname : barFree bda.blockName = true)
    (hdesc : barFree (bda.optDescription.getD "") = true)
    (hcats : bda.categories.all barFree = true)
    (hkws : ((bda.optKeywords.getD []).all barFree) = true)
    (hfac : barFree factory = true)
    (h : fa.optLocalSize.isSome = true) :
    strContains (generateBlockDescription fa bda factory) "|param localSize" = false := by
  obtain ⟨n, hn⟩ := Option.isSome_iff_exists.mp h
  have hp : barsRefute (("param localSize" : String).data)
      (generateParamsAndSetters fa).1.data = true := by
    simp only [generateParamsAndSetters, genLS_some fa.optLocalSize n hn,
      generateGlobalFactorStrings, generateProductionFactorStrings, String.data_append]
    exact barsRefute_append
      (barsRefute_append (barsRefute_str _ "" (by decide)) (barsRefute_opt _ _ _ (by decide)))
      (barsRefute_opt _ _ _ (by decide))
  have hst : barsRefute (("param localSize" : String).data)
      (generateParamsAndSetters fa).2.data = true := by
    simp only [generateParamsAndSetters, genLS_some fa.optLocalSize n hn,
      generateGlobalFactorStrings, generateProductionFactorStrings, String.data_append]
    exact barsRefute_append
      (barsRefute_append (barsRefute_str _ "" (by decide)) (barsRefute_opt _ _ _ (by decide)))
      (barsRefute_opt _ _ _ (by decide))
  have hdoc := doc_barsRefute (("param localSize" : String).data) fa bda factory
    hname hdesc hcats hkws hfac (by decide) (by decide) (by decide) (by decide) (by decide) hp hst
  unfold strContains
  rw [show ("|param localSize" : String).data
        = '|' :: ("param localSize" : String).data from rfl]
  exact barsRefute_not_contains hdoc

/-- With localSize absent, the "|param localSize" marker occurs in the
description, inside the canned localSize parameter block. -/
theorem lsParam_in_doc (fa : FactoryArgs) (bda : BlockDescriptionArgs) (factory : String)
    (h : fa.optLocalSize = none) :
    strContains (generateBlockDescription fa bda factory) "|param localSize" = true := by
  unfold strContains
  apply contains_doc_of_params
  simp only [generateParamsAndSetters, genLS_none fa.optLocalSize h, String.data_append]
  exact containsB_append_left _ (containsB_append_left _ (by decide))

/-- With localSize pre-bound and bar-free metadata, the
"|setter setLocalSize" marker does not occur in the description. -/
theorem lsSetter_not_in_doc (fa : FactoryArgs) (bda : BlockDescriptionArgs) (factory : String)
    (hname : barFree bda.blockName = true)
    (hdesc : barFree (bda.optDescription.getD "") = true)
    (hcats : bda.categories.all barFree = true)
    (hkws : ((bda.optKeywords.getD []).all barFree) = true)
    (hfac : barFree factory = true)
    (h : fa.optLocalSize.isSome = true) :
    strContains (generateBlockDescription fa bda factory) "|setter setLocalSize" = false := by
  obtain ⟨n, hn⟩ := Option.isSome_iff_exists.mp h
  have hp : barsRefute (("setter setLocalSize" : String).data)
      (generateParamsAndSetters fa).1.data = true := by
    simp only [generateParamsAndSetters, genLS_some fa.optLocalSize n hn,
      generateGlobalFactorStrings, generateProductionFactorStrings, String.data_append]
    exact barsRefute_append
      (barsRefute_append (barsRefute_str _ "" (by decide)) (barsRefute_opt _ _ _ (by decide)))
      (barsRefute_opt _ _ _ (by decide))
  have hst : barsRefute (("setter setLocalSize" : String).data)
      (generateParamsAndSetters fa).2.data = true := by
    simp only [generateParamsAndSetters, genLS_some fa.optLocalSize n hn,
      generateGlobalFactorStrings, generateProductionFactorStrings, String.data_append]
    exact barsRefute_append
      (barsRefute_append (barsRefute_str _ "" (by decide)) (barsRefute_opt _ _ _ (by decide)))
      (barsRefute_opt _ _ _ (by decide))
  have hdoc := doc_barsRefute (("setter setLocalSize" : String).data) fa bda factory
    hname hdesc hcats hkws hfac (by decide) (by decide) (by decide) (by decide) (by decide) hp hst
  unfold strContains
  rw [show ("|setter setLocalSize" : String).data
        = '|' :: ("setter setLocalSize" : String).data from rfl]
  exact barsRefute_not_contains hdoc

/-- With localSize absent, the "|setter setLocalSize" marker occurs in the
description, inside the canned setter line. -/
theorem lsSetter_in_doc (fa : FactoryArgs) (bda : BlockDescriptionArgs) (factory : String)
    (h : fa.optLocalSize = none) :
    strContains (generateBlockDescription fa bda factory) "|setter setLocalSize" = true := by
  unfold strContains
  apply contains_doc_of_setters
  simp only [generateParamsAndSetters, genLS_none fa.optLocalSize h, String.data_append]
  exact containsB_append_left _ (containsB_append_left _ (by decide))

/-- With globalFactor pre-bound and bar-free metadata, the
"|param globalFactor" marker does not occur in the description. -/
theorem gfParam_not_in_doc (fa : FactoryArgs) (bda : BlockDescriptionArgs) (factory : String)
    (hname : barFree bda.blockName = true)
    (hdesc : barFree (bda.optDescription.getD "") = true)
    (hcats : bda.categories.all barFree = true)
    (hkws : ((bda.optKeywords.getD []).all barFree) = true)
    (hfac : barFree factory = true)
    (h : fa.optGlobalFactor.isSome = true) :
    strContains (generateBlockDescription fa bda factory) "|param globalFactor" = false := by
  obtain ⟨n, hn⟩ := Option.isSome_iff_exists.mp h
  have hp : barsRefute (("param globalFactor" : String).data)
      (generateParamsAndSetters fa).1.data = true := by
    simp only [generateParamsAndSetters, genGF_some fa.optGlobalFactor n hn,
      generateLocalSizeStrings, generateProductionFactorStrings, String.data_append]
    exact barsRefute_append
      (barsRefute_append (barsRefute_opt _ _ _ (by decide)) (barsRefute_str _ "" (by decide)))
      (barsRefute_opt _ _ _ (by decide))
  have hst : barsRefute (("param globalFactor" : String).data)
      (generateParamsAndSetters fa).2.data = true := by
    simp only [generateParamsAndSetters, genGF_some fa.optGlobalFactor n hn,
      generateLocalSizeStrings, generateProductionFactorStrings, String.data_append]
    exact barsRefute_append
      (barsRefute_append (barsRefute_opt _ _ _ (by decide)) (barsRefute_str _ "" (by decide)))
      (barsRefute_opt _ _ _ (by decide))
  have hdoc := doc_barsRefute (("param globalFactor" : String).data) fa bda factory
    hname hdesc hcats hkws hfac (by decide) (by decide) (by decide) (by decide) (by decide) hp hst
  unfold strContains
  rw [show ("|param globalFactor" : String).data
        = '|' :: ("param globalFactor" : String).data from rfl]
  exact barsRefute_not_contains hdoc

/-- With globalFactor absent, the "|param globalFactor" marker occurs in
the description, inside the canned globalFactor parameter block. -/
theorem gfParam_in_doc (fa : FactoryArgs) (bda : BlockDescriptionArgs) (factory : String)
    (h : fa.optGlobalFactor = none) :
    strContains (generateBlockDescription fa bda factory) "|param globalFactor" = true := by
  unfold strContains
  apply contains_doc_of_params
  simp only [generateParamsAndSetters, genGF_none fa.optGlobalFactor h, String.data_append]
  exact containsB_append_left _ (containsB_append_right _ (by decide))

/-- With globalFactor pre-bound and bar-free metadata, the
"|setter setGlobalFactor" marker does not occur in the description. -/
theorem gfSetter_not_in_doc (fa : FactoryArgs) (bda : BlockDescriptionArgs) (factory : String)
    (hname : barFree bda.blockName = true)
    (hdesc : barFree (bda.optDescription.getD "") = true)
    (hcats : bda.categories.all barFree = true)
    (hkws : ((bda.optKeywords.getD []).all barFree) = true)
    (hfac : barFree factory = true)
    (h : fa.optGlobalFactor.isSome = true) :
    strContains (generateBlockDescription fa bda factory) "|setter setGlobalFactor" = false := by
  obtain ⟨n, hn⟩ := Option.isSome_iff_exists.mp h
  have hp : barsRefute (("setter setGlobalFactor" : String).data)
      (generateParamsAndSetters fa).1.data = true := by
    simp only [generateParamsAndSetters, genGF_some fa.optGlobalFactor n hn,
      generateLocalSizeStrings, generateProductionFactorStrings, String.data_append]
    exact barsRefute_append
      (barsRefute_append (barsRefute_opt _ _ _ (by decide)) (barsRefute_str _ "" (by decide)))
      (barsRefute_opt _ _ _ (by decide))
  have hst : barsRefute (("setter setGlobalFactor" : String).data)
      (generateParamsAndSetters fa).2.data = true := by
    simp only [generateParamsAndSetters, genGF_some fa.optGlobalFactor n hn,
      generateLocalSizeStrings, generateProductionFactorStrings, String.data_append]
    exact barsRefute_append
      (barsRefute_append (barsRefute_opt _ _ _ (by decide)) (barsRefute_str _ "" (by decide)))
      (barsRefute_opt _ _ _ (by decide))
  have hdoc := doc_barsRefute (("setter setGlobalFactor" : String).data) fa bda factory
    hname hdesc hcats hkws hfac (by decide) (by decide) (by decide) (by decide) (by decide) hp hst
  unfold strContains
  rw [show ("|setter setGlobalFactor" : String).data
        = '|' :: ("setter setGlobalFactor" : String).data from rfl]
  exact barsRefute_not_contains hdoc

/-- With globalFactor absent, the "|setter setGlobalFactor" marker occurs
in the description, inside the canned setter line. -/
theorem gfSetter_in_doc (fa : FactoryArgs) (bda : BlockDescriptionArgs) (factory : String)
    (h : fa.optGlobalFactor = none) :
    strContains (generateBlockDescription fa bda factory) "|setter setGlobalFactor" = true := by
  unfold strContains
  apply contains_doc_of_setters
  simp only [generateParamsAndSetters, genGF_none fa.optGlobalFactor h, String.data_append]
  exact containsB_append_left _ (containsB_append_right _ (by decide))

/-- With productionFactor pre-bound and bar-free metadata, the
"|param productionFactor" marker does not occur in the description. -/
theorem pfParam_not_in_doc (fa : FactoryArgs) (bda : BlockDescriptionArgs) (factory : String)
    (hname : barFree bda.blockName = true)
    (hdesc : barFree (bda.optDescription.getD "") = true)
    (hcats : bda.categories.all barFree = true)
    (hkws : ((bda.optKeywords.getD []).all barFree) = true)
    (hfac : barFree factory = true)
    (h : fa.optProductionFactor.isSome = true) :
    strContains (generateBlockDescription fa bda factory) "|param productionFactor" = false := by
  obtain ⟨n, hn⟩ := Option.isSome_iff_exists.mp h
  have hp : barsRefute (("param productionFactor" : String).data)
      (generateParamsAndSetters fa).1.data = true := by
    simp only [generateParamsAndSetters, genPF_some fa.optProductionFactor n hn,
      generateLocalSizeStrings, generateGlobalFactorStrings, String.data_append]
    exact barsRefute_append
      (barsRefute_append (barsRefute_opt _ _ _ (by decide)) (barsRefute_opt _ _ _ (by decide)))
      (barsRefute_str _ "" (by decide))
  have hst : barsRefute (("param productionFactor" : String).data)
      (generateParamsAndSetters fa).2.data = true := by
    simp only [generateParamsAndSetters, genPF_some fa.optProductionFactor n hn,
      generateLocalSizeStrings, generateGlobalFactorStrings, String.data_append]
    exact barsRefute_append
      (barsRefute_append (barsRefute_opt _ _ _ (by decide)) (barsRefute_opt _ _ _ (by decide)))
      (barsRefute_str _ "" (by decide))
  have hdoc := doc_barsRefute (("param productionFactor" : String).data) fa bda factory
    hname hdesc hcats hkws hfac (by decide) (by decide) (by decide) (by decide) (by decide) hp hst
  unfold strContains
  rw [show ("|param productionFactor" : String).data
        = '|' :: ("param productionFactor" : String).data from rfl]
  exact barsRefute_not_contains hdoc

/-- With productionFactor absent, the "|param productionFactor" marker
occurs in the description, inside the canned parameter block. -/
theorem pfParam_in_doc (fa : FactoryArgs) (bda : BlockDescriptionArgs) (factory : String)
    (h : fa.optProductionFactor = none) :
    strContains (generateBlockDescription fa bda factory) "|param productionFactor" = true := by
  unfold strContains
  apply contains_doc_of_params
  simp only [generateParamsAndSetters, genPF_none fa.optProductionFactor h, String.data_append]
  exact containsB_append_right _ (by decide)

/-- With productionFactor pre-bound and bar-free metadata, the
"|setter setProductionFactor" marker does not occur in the description. -/
theorem pfSetter_not_in_doc (fa : FactoryArgs) (bda : BlockDescriptionArgs) (factory : String)
    (hname : barFree bda.blockName = true)
    (hdesc : barFree (bda.optDescription.getD "") = true)
    (hcats : bda.categories.all barFree = true)
    (hkws : ((bda.optKeywords.getD []).all barFree) = true)
    (hfac : barFree factory = true)
    (h : fa.optProductionFactor.isSome = true) :
    strContains (generateBlockDescription fa bda factory) "|setter setProductionFactor" = false := by
  obtain ⟨n, hn⟩ := Option.isSome_iff_exists.mp h
  have hp : barsRefute (("setter setProductionFactor" : String).data)
      (generateParamsAndSetters fa).1.data = true := by
    simp only [generateParamsAndSetters, genPF_some fa.optProductionFactor n hn,
      generateLocalSizeStrings, generateGlobalFactorStrings, String.data_append]
    exact barsRefute_append
      (barsRefute_append (barsRefute_opt _ _ _ (by decide)) (barsRefute_opt _ _ _ (by decide)))
      (barsRefute_str _ "" (by decide))
  have hst : barsRefute (("setter setProductionFactor" : String).data)
      (generateParamsAndSetters fa).2.data = true := by
    simp only [generateParamsAndSetters, genPF_some fa.optProductionFactor n hn,
      generateLocalSizeStrings, generateGlobalFactorStrings, String.data_append]
    exact barsRefute_append
      (barsRefute_append (barsRefute_opt _ _ _ (by decide)) (barsRefute_opt _ _ _ (by decide)))
      (barsRefute_str _ "" (by decide))
  have hdoc := doc_barsRefute (("setter setProductionFactor" : String).data) fa bda factory
    hname hdesc hcats hkws hfac (by decide) (by decide) (by decide) (by decide) (by decide) hp hst
  unfold strContains
  rw [show ("|setter setProductionFactor" : String).data
        = '|' :: ("setter setProductionFactor" : String).data from rfl]
  exact barsRefute_not_contains hdoc

/-- With productionFactor absent, the "|setter setProductionFactor" marker
occurs in the description, inside the canned setter line. -/
theorem pfSetter_in_doc (fa : FactoryArgs) (bda : BlockDescriptionArgs) (factory : String)
    (h : fa.optProductionFactor = none) :
    strContains (generateBlockDescription fa bda factory) "|setter setProductionFactor" = true := by
  unfold strContains
  apply contains_doc_of_setters
  simp only [generateParamsAndSetters, genPF_none fa.optProductionFactor h, String.data_append]
  exact containsB_append_right _ (by decide)

/-- The FactoryArgs a fully valid config elaborates to. -/
def faOf (cfg : Config) (cp sv k iv ov : String) : FactoryArgs :=
  { source := resolveSource cp sv
    kernelName := k
    inputTypes := stringTokenizerToVector iv
    outputTypes := stringTokenizerToVector ov
    optLocalSize := (cfg.find "local_size").map convertString
    optGlobalFactor := (cfg.find "global_factor").map convertString
    optProductionFactor := (cfg.find "production_factor").map convertString }

/-- The BlockDescriptionArgs a fully valid config elaborates to. -/
def bdaOf (cfg : Config) (cp sv k ov : String) : BlockDescriptionArgs :=
  { blockName := blockNameOf cfg k
    categories := categoriesOf cfg ov (resolveSource cp sv)
    optDescription := cfg.find "description"
    optKeywords := keywordsOf cfg ov }

/-- Reduction of the loader on a config that passes every check. -/
theorem loader_ok (fs : String → Bool) (cfg : Config) (cp sv k iv ov f : String)
    (h1 : cfg.find "confFilePath" = some cp)
    (h2 : cfg.find "source" = some sv)
    (hfs : fs (resolveSource cp sv) = true)
    (h3 : cfg.find "kernel_name" = some k)
    (h4 : cfg.find "input_types" = some iv)
    (h5 : cfg.find "output_types" = some ov)
    (h6 : cfg.find "factory" = some f) :
    OpenClConfLoader fs cfg =
      ([{ path := "/blocks" ++ f,
          payload := RegistryPayload.call f (faOf cfg cp sv k iv ov) },
        { path := "/blocks/docs" ++ f,
          payload := RegistryPayload.doc
            (generateBlockDescription (faOf cfg cp sv k iv ov) (bdaOf cfg cp sv k ov) f) }],
       Except.ok
         { paths := ["/blocks" ++ f, "/blocks/docs" ++ f]
           factoryArgs := faOf cfg cp sv k iv ov
           blockDescriptionArgs := bdaOf cfg cp sv k ov
           factory := f
           blockDescription :=
             generateBlockDescription (faOf cfg cp sv k iv ov) (bdaOf cfg cp sv k ov) f }) := by
  simp [OpenClConfLoader, h1, h2, hfs, h3, h4, h5, h6, faOf, bdaOf]

/-- Scenario B configuration: all three tunables pre-bound. -/
def cfgB : Config :=
  [("confFilePath", "/p/x.conf"), ("source", "k.cl"), ("kernel_name", "run"),
   ("input_types", "float32"), ("output_types", "float32"), ("factory", "/my/k"),
   ("local_size", "4"), ("global_factor", "2"), ("production_factor", "1")]

/-- C4: on every valid config the loader returns exactly the two plugin
paths "/blocks"+factory and "/blocks/docs"+factory, in that order, and
those are exactly the paths of the two registry writes it performs. -/
theorem c4_two_paths (fs : String → Bool) (cfg : Config) (cp sv k iv ov f : String)
    (h1 : cfg.find "confFilePath" = some cp)
    (h2 : cfg.find "source" = some sv)
    (hfs : fs (resolveSource cp sv) = true)
    (h3 : cfg.find "kernel_name" = some k)
    (h4 : cfg.find "input_types" = some iv)
    (h5 : cfg.find "output_types" = some ov)
    (h6 : cfg.find "factory" = some f) :
    loaderSucceeded fs cfg = true
    ∧ loaderPaths fs cfg = ["/blocks" ++ f, "/blocks/docs" ++ f]
    ∧ (loaderWrites fs cfg).map RegistryWrite.path = ["/blocks" ++ f, "/blocks/docs" ++ f] := by
  have h := loader_ok fs cfg cp sv k iv ov f h1 h2 hfs h3 h4 h5 h6
  simp [loaderSucceeded, loaderPaths, loaderWrites, h]

/-- Witness for C4 at the scenario-A configuration. -/
theorem c4_witness :
    loaderSucceeded fsP cfgMin = true
    ∧ loaderPaths fsP cfgMin = ["/blocks/my/k", "/blocks/docs/my/k"]
    ∧ (loaderWrites fsP cfgMin).map RegistryWrite.path = ["/blocks/my/k", "/blocks/docs/my/k"] := by
  have h := c4_two_paths fsP cfgMin "/p/x.conf" "k.cl" "run" "float32" "float32" "/my/k"
    rfl rfl rfl rfl rfl rfl rfl
  simpa using h

/-- C5: whatever positional arguments the registered closure receives, the
generic OpenCL block factory is invoked with exactly those arguments in
order, followed by the configured input type list and then the output type
list, each of which is the tokenization of its config value in order. -/
theorem c5_factory_args_order (fs : String → Bool) (cfg : Config) (cp sv k iv ov f : String)
    (h1 : cfg.find "confFilePath" = some cp)
    (h2 : cfg.find "source" = some sv)
    (hfs : fs (resolveSource cp sv) = true)
    (h3 : cfg.find "kernel_name" = some k)
    (h4 : cfg.find "input_types" = some iv)
    (h5 : cfg.find "output_types" = some ov)
    (h6 : cfg.find "factory" = some f)
    (args : List PObj) :
    (openClBlockFactory f (loaderFa fs cfg) args).genericFactoryArgs
      = args ++ [PObj.strVec (stringTokenizerToVector iv),
                 PObj.strVec (stringTokenizerToVector ov)]
    ∧ (openClBlockFactory f (loaderFa fs cfg) args).genericFactoryPath
      = "/blocks/blocks/opencl_kernel" := by
  have h := loader_ok fs cfg cp sv k iv ov f h1 h2 hfs h3 h4 h5 h6
  simp [loaderFa, h, openClBlockFactory, faOf]

/-- Witness for C5 at the scenario-A configuration with two user args. -/
theorem c5_witness :
    (openClBlockFactory "/my/k" (loaderFa fsP cfgMin) [PObj.user 0, PObj.user 1]).genericFactoryArgs
      = [PObj.user 0, PObj.user 1, PObj.strVec ["float32"], PObj.strVec ["float32"]] := by
  have h := c5_factory_args_order fsP cfgMin "/p/x.conf" "k.cl" "run" "float32" "float32" "/my/k"
    rfl rfl rfl rfl rfl rfl rfl [PObj.user 0, PObj.user 1]
  have h1 := h.1
  rw [h1]
  decide

/-- C6: each closure invocation names the block, then installs the kernel
source via setSource(kernelName, resolvedSource), then invokes exactly the
setters of the tunables present in the config, in the fixed order
setLocalSize, setGlobalFactor, setProductionFactor, with the parsed values;
setters of absent tunables are not invoked. -/
theorem c6_setter_order (fs : String → Bool) (cfg : Config) (cp sv k iv ov f : String)
    (h1 : cfg.find "confFilePath" = some cp)
    (h2 : cfg.find "source" = some sv)
    (hfs : fs (resolveSource cp sv) = true)
    (h3 : cfg.find "kernel_name" = some k)
    (h4 : cfg.find "input_types" = some iv)
    (h5 : cfg.find "output_types" = some ov)
    (h6 : cfg.find "factory" = some f)
    (args : List PObj) :
    (openClBlockFactory f (loaderFa fs cfg) args).calls
      = [BlockCall.setName f, BlockCall.setSource k (resolveSource cp sv)]
        ++ (match cfg.find "local_size" with
            | some v => [BlockCall.setLocalSize (convertString v)]
            | none => [])
        ++ (match cfg.find "global_factor" with
            | some v => [BlockCall.setGlobalFactor (convertString v)]
            | none => [])
        ++ (match cfg.find "production_factor" with
            | some v => [BlockCall.setProductionFactor (convertString v)]
            | none => []) := by
  have h := loader_ok fs cfg cp sv k iv ov f h1 h2 hfs h3 h4 h5 h6
  simp only [loaderFa, h, openClBlockFactory, faOf]
  cases cfg.find "local_size" <;> cases cfg.find "global_factor" <;>
    cases cfg.find "production_factor" <;> simp

/-- Witness for C6 at the scenario-B configuration: all three setters fire
after setSource, in order. -/
theorem c6_witness :
    (openClBlockFactory "/my/k" (loaderFa fsP cfgB) []).calls
      = [BlockCall.setName "/my/k", BlockCall.setSource "run" "/p/k.cl",
         BlockCall.setLocalSize 4, BlockCall.setGlobalFactor 2,
         BlockCall.setProductionFactor 1] := by
  have h := c6_setter_order fsP cfgB "/p/x.conf" "k.cl" "run" "float32" "float32" "/my/k"
    rfl rfl rfl rfl rfl rfl rfl []
  rw [h]
  decide

/-- Is the path absolute in the Unix model (begins with '/')? -/
def isAbsolute (p : String) : Bool :=
  match p.data with
  | c :: _ => c == '/'
  | [] => false

/-- The directory prefix of an absolute path starts with '/'. -/
theorem dirPrefixAux_absolute (t : List Char) :
    ∃ r, dirPrefixAux ('/' :: t) = '/' :: r := by
  cases h : t.contains '/' with
  | true =>
    refine ⟨dirPrefixAux t, ?_⟩
    simp only [dirPrefixAux, h]
  | false =>
    refine ⟨[], ?_⟩
    simp only [dirPrefixAux, h]
    rfl

/-- Resolution against the parent of an absolute path yields an absolute
path. -/
theorem resolveSource_absolute (cp sv : String) (h : isAbsolute cp = true) :
    isAbsolute (resolveSource cp sv) = true := by
  have hdata : (resolveSource cp sv).data = dirPrefixAux cp.data ++ sv.data := by
    show (pathMakeParent cp ++ sv).data = _
    rw [String.data_append]
    rfl
  cases hd : cp.data with
  | nil =>
    unfold isAbsolute at h
    rw [hd] at h
    simp at h
  | cons c t =>
    unfold isAbsolute at h
    rw [hd] at h
    simp only [beq_iff_eq] at h
    subst h
    obtain ⟨r, hr⟩ := dirPrefixAux_absolute t
    unfold isAbsolute
    rw [hdata, hd, hr]
    simp

/-- Scenario-E style configuration: explicit block_name, categories,
keywords and description. -/
def cfgE : Config :=
  [("confFilePath", "/p/x.conf"), ("source", "k.cl"), ("kernel_name", "run"),
   ("input_types", "float32"), ("output_types", "float32"), ("factory", "/my/k"),
   ("block_name", "My Kernel"), ("categories", "A B"), ("keywords", "x y z"),
   ("description", "Does a thing.")]

/-- C1: the loader derives both the categories list and the keywords list
from the output_types value instead of from their own values: with
categories:"A B", keywords:"x y z" and output_types:"float32" it produces
["float32"] for both, although tokenizing the fields themselves would give
["A", "B"] and ["x", "y", "z"].  The source's own lookups (categoriesIter
on line 337, keywordsIter on line 344) show the intent to read each field,
but lines 340 and 347 tokenize outputTypesIter->second: a copy-paste defect
in the code, matching the spec's own latent-bug note. -/
theorem c1_code_bug_eval :
    (loaderBda fsP cfgE).categories = ["float32"]
    ∧ (loaderBda fsP cfgE).optKeywords = some ["float32"]
    ∧ stringTokenizerToVector "A B" = ["A", "B"]
    ∧ stringTokenizerToVector "x y z" = ["x", "y", "z"] := by
  refine ⟨by decide, by decide, by decide, by decide⟩

/-- Configuration with a malformed local_size value (scenario F). -/
def cfgBadInt : Config :=
  [("confFilePath", "/p/x.conf"), ("source", "k.cl"), ("kernel_name", "run"),
   ("input_types", "float32"), ("output_types", "float32"), ("factory", "/my/k"),
   ("local_size", "abc")]

/-- C2 (counterexample): with local_size:"abc" the loader raises no error
at all: it succeeds, stores optLocalSize = 0, and performs its registry
writes, refuting the claimed InvalidField failure with no writes. -/
theorem c2_counterexample :
    loaderSucceeded fsP cfgBadInt = true
    ∧ (loaderFa fsP cfgBadInt).optLocalSize = some 0
    ∧ loaderWrites fsP cfgBadInt ≠ [] := by
  refine ⟨by decide, by decide, by decide⟩

/-- C2 (amended): a present tunable key never causes a failure, however
malformed: the loader succeeds and stores the lenient stream-extraction
result convertString of the raw value (0 when no digits are found). -/
theorem c2_amended (fs : String → Bool) (cfg : Config) (cp sv k iv ov f : String)
    (h1 : cfg.find "confFilePath" = some cp)
    (h2 : cfg.find "source" = some sv)
    (hfs : fs (resolveSource cp sv) = true)
    (h3 : cfg.find "kernel_name" = some k)
    (h4 : cfg.find "input_types" = some iv)
    (h5 : cfg.find "output_types" = some ov)
    (h6 : cfg.find "factory" = some f) :
    loaderSucceeded fs cfg = true
    ∧ (loaderFa fs cfg).optLocalSize = (cfg.find "local_size").map convertString
    ∧ (loaderFa fs cfg).optGlobalFactor = (cfg.find "global_factor").map convertString
    ∧ (loaderFa fs cfg).optProductionFactor
        = (cfg.find "production_factor").map convertString := by
  have h := loader_ok fs cfg cp sv k iv ov f h1 h2 hfs h3 h4 h5 h6
  simp [loaderSucceeded, loaderFa, h, faOf]

/-- Witness for C2 (amended) at the malformed-integer configuration. -/
theorem c2_amended_witness :
    loaderSucceeded fsP cfgBadInt = true
    ∧ (loaderFa fsP cfgBadInt).optLocalSize = some (convertString "abc") := by
  have h := c2_amended fsP cfgBadInt "/p/x.conf" "k.cl" "run" "float32" "float32" "/my/k"
    rfl rfl rfl rfl rfl rfl rfl
  refine ⟨h.1, ?_⟩
  rw [h.2.1]
  decide

/-- C7 (amended): a missing required key makes the loader throw before any
registry write, with a message naming the field in words ("No conf
filepath", "No source", "No kernel name", "No input types", "No output
types", "No factory") - not, in general, the literal key string.  Keys are
checked in the order confFilePath, source (presence then file existence),
kernel_name, input_types, output_types, and factory last. -/
theorem c7_amended (fs : String → Bool) (cfg : Config) :
    (cfg.find "confFilePath" = none →
      OpenClConfLoader fs cfg = ([], Except.error (LoaderError.exception "No conf filepath")))
    ∧ (∀ cp, cfg.find "confFilePath" = some cp → cfg.find "source" = none →
      OpenClConfLoader fs cfg = ([], Except.error (LoaderError.exception "No source")))
    ∧ (∀ cp sv, cfg.find "confFilePath" = some cp → cfg.find "source" = some sv →
      fs (resolveSource cp sv) = true → cfg.find "kernel_name" = none →
      OpenClConfLoader fs cfg = ([], Except.error (LoaderError.exception "No kernel name")))
    ∧ (∀ cp sv k, cfg.find "confFilePath" = some cp → cfg.find "source" = some sv →
      fs (resolveSource cp sv) = true → cfg.find "kernel_name" = some k →
      cfg.find "input_types" = none →
      OpenClConfLoader fs cfg = ([], Except.error (LoaderError.exception "No input types")))
    ∧ (∀ cp sv k iv, cfg.find "confFilePath" = some cp → cfg.find "source" = some sv →
      fs (resolveSource cp sv) = true → cfg.find "kernel_name" = some k →
      cfg.find "input_types" = some iv → cfg.find "output_types" = none →
      OpenClConfLoader fs cfg = ([], Except.error (LoaderError.exception "No output types")))
    ∧ (∀ cp sv k iv ov, cfg.find "confFilePath" = some cp → cfg.find "source" = some sv →
      fs (resolveSource cp sv) = true → cfg.find "kernel_name" = some k →
      cfg.find "input_types" = some iv → cfg.find "output_types" = some ov →
      cfg.find "factory" = none →
      OpenClConfLoader fs cfg = ([], Except.error (LoaderError.exception "No factory"))) := by
  refine ⟨?_, ?_, ?_, ?_, ?_, ?_⟩
  · intro h
    simp [OpenClConfLoader, h]
  · intro cp hc h
    simp [OpenClConfLoader, hc, h]
  · intro cp sv hc hs hfs h
    simp [OpenClConfLoader, hc, hs, hfs, h]
  · intro cp sv k hc hs hfs hk h
    simp [OpenClConfLoader, hc, hs, hfs, hk, h]
  · intro cp sv k iv hc hs hfs hk hi h
    simp [OpenClConfLoader, hc, hs, hfs, hk, hi, h]
  · intro cp sv k iv ov hc hs hfs hk hi ho h
    simp [OpenClConfLoader, hc, hs, hfs, hk, hi, ho, h]

/-- Scenario-C configuration: kernel_name omitted. -/
def cfgNoKernel : Config :=
  [("confFilePath", "/p/x.conf"), ("source", "k.cl"),
   ("input_types", "float32"), ("output_types", "float32"), ("factory", "/my/k")]

/-- C7 (counterexample): omitting kernel_name yields the message "No kernel
name", which does not contain the literal key "kernel_name" (nor does "No
input types" contain "input_types"); the claim's "message includes the
missing key's name" fails. No registry write is performed. -/
theorem c7_counterexample :
    OpenClConfLoader fsP cfgNoKernel
      = ([], Except.error (LoaderError.exception "No kernel name"))
    ∧ strContains "No kernel name" "kernel_name" = false
    ∧ strContains "No input types" "input_types" = false := by
  refine ⟨by decide, by decide, by decide⟩

/-- Witness for C7 (amended) at two concrete configurations. -/
theorem c7_amended_witness :
    OpenClConfLoader fsP cfgNoKernel
      = ([], Except.error (LoaderError.exception "No kernel name"))
    ∧ OpenClConfLoader fsP []
        = ([], Except.error (LoaderError.exception "No conf filepath")) := by
  refine ⟨?_, ?_⟩
  · exact (c7_amended fsP cfgNoKernel).2.2.1 "/p/x.conf" "k.cl" rfl rfl (by decide) rfl
  · exact (c7_amended fsP []).1 rfl

/-- C8: the source value is resolved against the parent directory of
confFilePath; for the framework-supplied absolute confFilePath the
resolved path is absolute, and when the file does not exist the loader
throws FileNotFound naming exactly the resolved path, having performed no
registry write. -/
theorem c8_file_not_found (fs : String → Bool) (cfg : Config) (cp sv : String)
    (h1 : cfg.find "confFilePath" = some cp)
    (habs : isAbsolute cp = true)
    (h2 : cfg.find "source" = some sv)
    (hmiss : fs (resolveSource cp sv) = false) :
    isAbsolute (resolveSource cp sv) = true
    ∧ OpenClConfLoader fs cfg
        = ([], Except.error (LoaderError.fileNotFound (resolveSource cp sv))) := by
  refine ⟨resolveSource_absolute cp sv habs, ?_⟩
  simp [OpenClConfLoader, h1, h2, hmiss]

/-- Scenario-D configuration: source names a file that does not exist. -/
def cfgBadPath : Config :=
  [("confFilePath", "/p/x.conf"), ("source", "nope.cl"), ("kernel_name", "run"),
   ("input_types", "float32"), ("output_types", "float32"), ("factory", "/my/k")]

/-- Witness for C8 at the scenario-D configuration. -/
theorem c8_witness :
    isAbsolute (resolveSource "/p/x.conf" "nope.cl") = true
    ∧ OpenClConfLoader fsP cfgBadPath
        = ([], Except.error (LoaderError.fileNotFound (resolveSource "/p/x.conf" "nope.cl"))) :=
  c8_file_not_found fsP cfgBadPath "/p/x.conf" "nope.cl" rfl (by decide) rfl (by decide)

/-- C10: the presence and existence of source are checked before
kernel_name, input_types, output_types and factory: a config naming a
non-existent source file throws FileNotFound even when those later-checked
keys are absent, never a missing-field exception. -/
theorem c10_source_checked_first (fs : String → Bool) (cfg : Config) (cp sv : String)
    (h1 : cfg.find "confFilePath" = some cp)
    (h2 : cfg.find "source" = some sv)
    (hmiss : fs (resolveSource cp sv) = false)
    (_hlater : cfg.find "factory" = none ∨ cfg.find "kernel_name" = none
      ∨ cfg.find "input_types" = none ∨ cfg.find "output_types" = none) :
    OpenClConfLoader fs cfg
      = ([], Except.error (LoaderError.fileNotFound (resolveSource cp sv)))
    ∧ ∀ msg, OpenClConfLoader fs cfg ≠ ([], Except.error (LoaderError.exception msg)) := by
  have h : OpenClConfLoader fs cfg
      = ([], Except.error (LoaderError.fileNotFound (resolveSource cp sv))) := by
    simp [OpenClConfLoader, h1, h2, hmiss]
  refine ⟨h, ?_⟩
  intro msg hcontra
  rw [h] at hcontra
  simp at hcontra

/-- A configuration providing only confFilePath and a missing source. -/
def cfgOnlySource : Config := [("confFilePath", "/p/x.conf"), ("source", "nope.cl")]

/-- Witness for C10: factory (and every later-checked key) absent, source
file missing: the error is FileNotFound, not a missing-field exception. -/
theorem c10_witness :
    OpenClConfLoader fsP cfgOnlySource
      = ([], Except.error (LoaderError.fileNotFound (resolveSource "/p/x.conf" "nope.cl")))
    ∧ OpenClConfLoader fsP cfgOnlySource
        ≠ ([], Except.error (LoaderError.exception "No factory")) := by
  have h := c10_source_checked_first fsP cfgOnlySource "/p/x.conf" "nope.cl"
    rfl rfl (by decide) (Or.inl rfl)
  exact ⟨h.1, h.2 "No factory"⟩

/-- C3 (amended): for every valid config whose metadata strings (block
name, description, category and keyword tokens, factory path) avoid the
'|' directive character, each tunable's "|param" marker and "|setter"
marker occur in the synthesized documentation if and only if the
corresponding config key is absent - exactly one of "in the doc" and
"provided in the config" holds.  The bar-freedom proviso is forced by the
counterexample: a metadata string may otherwise smuggle a marker into the
text. -/
theorem c3_amended (fs : String → Bool) (cfg : Config) (cp sv k iv ov f : String)
    (h1 : cfg.find "confFilePath" = some cp)
    (h2 : cfg.find "source" = some sv)
    (hfs : fs (resolveSource cp sv) = true)
    (h3 : cfg.find "kernel_name" = some k)
    (h4 : cfg.find "input_types" = some iv)
    (h5 : cfg.find "output_types" = some ov)
    (h6 : cfg.find "factory" = some f)
    (hname : barFree (blockNameOf cfg k) = true)
    (hdesc : barFree ((cfg.find "description").getD "") = true)
    (hcats : (categoriesOf cfg ov (resolveSource cp sv)).all barFree = true)
    (hkws : (((keywordsOf cfg ov).getD []).all barFree) = true)
    (hfac : barFree f = true) :
    ((strContains (loaderDoc fs cfg) "|param localSize" = true)
        ↔ cfg.find "local_size" = none)
    ∧ ((strContains (loaderDoc fs cfg) "|setter setLocalSize" = true)
        ↔ cfg.find "local_size" = none)
    ∧ ((strContains (loaderDoc fs cfg) "|param globalFactor" = true)
        ↔ cfg.find "global_factor" = none)
    ∧ ((strContains (loaderDoc fs cfg) "|setter setGlobalFactor" = true)
        ↔ cfg.find "global_factor" = none)
    ∧ ((strContains (loaderDoc fs cfg) "|param productionFactor" = true)
        ↔ cfg.find "production_factor" = none)
    ∧ ((strContains (loaderDoc fs cfg) "|setter setProductionFactor" = true)
        ↔ cfg.find "production_factor" = none) := by
  have h := loader_ok fs cfg cp sv k iv ov f h1 h2 hfs h3 h4 h5 h6
  have hdoc : loaderDoc fs cfg
      = generateBlockDescription (faOf cfg cp sv k iv ov) (bdaOf cfg cp sv k ov) f := by
    simp [loaderDoc, h]
  rw [hdoc]
  refine ⟨?_, ?_, ?_, ?_, ?_, ?_⟩
  · cases hls : cfg.find "local_size" with
    | none =>
      have hnone : (faOf cfg cp sv k iv ov).optLocalSize = none := by simp [faOf, hls]
      simp [lsParam_in_doc (faOf cfg cp sv k iv ov) (bdaOf cfg cp sv k ov) f hnone]
    | some v =>
      have hsome : (faOf cfg cp sv k iv ov).optLocalSize.isSome = true := by simp [faOf, hls]
      simp [lsParam_not_in_doc (faOf cfg cp sv k iv ov) (bdaOf cfg cp sv k ov) f hname hdesc hcats hkws hfac hsome]
  · cases hls : cfg.find "local_size" with
    | none =>
      have hnone : (faOf cfg cp sv k iv ov).optLocalSize = none := by simp [faOf, hls]
      simp [lsSetter_in_doc (faOf cfg cp sv k iv ov) (bdaOf cfg cp sv k ov) f hnone]
    | some v =>
      have hsome : (faOf cfg cp sv k iv ov).optLocalSize.isSome = true := by simp [faOf, hls]
      simp [lsSetter_not_in_doc (faOf cfg cp sv k iv ov) (bdaOf cfg cp sv k ov) f hname hdesc hcats hkws hfac hsome]
  · cases hgf : cfg.find "global_factor" with
    | none =>
      have hnone : (faOf cfg cp sv k iv ov).optGlobalFactor = none := by simp [faOf, hgf]
      simp [gfParam_in_doc (faOf cfg cp sv k iv ov) (bdaOf cfg cp sv k ov) f hnone]
    | some v =>
      have hsome : (faOf cfg cp sv k iv ov).optGlobalFactor.isSome = true := by simp [faOf, hgf]
      simp [gfParam_not_in_doc (faOf cfg cp sv k iv ov) (bdaOf cfg cp sv k ov) f hname hdesc hcats hkws hfac hsome]
  · cases hgf : cfg.find "global_factor" with
    | none =>
      have hnone : (faOf cfg cp sv k iv ov).optGlobalFactor = none := by simp [faOf, hgf]
      simp [gfSetter_in_doc (faOf cfg cp sv k iv ov) (bdaOf cfg cp sv k ov) f hnone]
    | some v =>
      have hsome : (faOf cfg cp sv k iv ov).optGlobalFactor.isSome = true := by simp [faOf, hgf]
      simp [gfSetter_not_in_doc (faOf cfg cp sv k iv ov) (bdaOf cfg cp sv k ov) f hname hdesc hcats hkws hfac hsome]
  · cases hpf : cfg.find "production_factor" with
    | none =>
      have hnone : (faOf cfg cp sv k iv ov).optProductionFactor = none := by simp [faOf, hpf]
      simp [pfParam_in_doc (faOf cfg cp sv k iv ov) (bdaOf cfg cp sv k ov) f hnone]
    | some v =>
      have hsome : (faOf cfg cp sv k iv ov).optProductionFactor.isSome = true := by
        simp [faOf, hpf]
      simp [pfParam_not_in_doc (faOf cfg cp sv k iv ov) (bdaOf cfg cp sv k ov) f hname hdesc hcats hkws hfac hsome]
  · cases hpf : cfg.find "production_factor" with
    | none =>
      have hnone : (faOf cfg cp sv k iv ov).optProductionFactor = none := by simp [faOf, hpf]
      simp [pfSetter_in_doc (faOf cfg cp sv k iv ov) (bdaOf cfg cp sv k ov) f hnone]
    | some v =>
      have hsome : (faOf cfg cp sv k iv ov).optProductionFactor.isSome = true := by
        simp [faOf, hpf]
      simp [pfSetter_not_in_doc (faOf cfg cp sv k iv ov) (bdaOf cfg cp sv k ov) f hname hdesc hcats hkws hfac hsome]

/-- A valid configuration with local_size bound and the other tunables
absent. -/
def cfgC3 : Config :=
  [("confFilePath", "/p/x.conf"), ("source", "k.cl"), ("kernel_name", "run"),
   ("input_types", "float32"), ("output_types", "float32"), ("factory", "/my/k"),
   ("local_size", "4")]

/-- Witness for C3 (amended): with local_size bound and globalFactor free,
the doc omits the localSize param marker and contains the globalFactor
one. -/
theorem c3_amended_witness :
    strContains (loaderDoc fsP cfgC3) "|param localSize" = false
    ∧ strContains (loaderDoc fsP cfgC3) "|param globalFactor" = true := by
  have h := c3_amended fsP cfgC3 "/p/x.conf" "k.cl" "run" "float32" "float32" "/my/k"
    rfl rfl rfl rfl rfl rfl rfl (by decide) (by decide) (by decide) (by decide) (by decide)
  constructor
  · refine Bool.eq_false_iff.mpr ?_
    intro hx
    have := h.1.mp hx
    exact absurd this (by decide)
  · exact h.2.2.1.mpr (by decide)

/-- A valid configuration that pre-binds local_size while its block_name
contains the localSize parameter marker text. -/
def cfgSmuggle : Config :=
  [("confFilePath", "/p/x.conf"), ("source", "k.cl"), ("kernel_name", "run"),
   ("input_types", "float32"), ("output_types", "float32"), ("factory", "/my/k"),
   ("local_size", "4"), ("block_name", "evil |param localSize block")]

/-- C3 (counterexample): the claim quantifies over every valid config, but
a block_name containing the marker text makes "|param localSize" occur in
the doc even though local_size was provided, so "never both" fails as
stated. -/
theorem c3_counterexample :
    loaderSucceeded fsP cfgSmuggle = true
    ∧ (cfgSmuggle.find "local_size").isSome = true
    ∧ strContains (loaderDoc fsP cfgSmuggle) "|param localSize" = true := by
  refine ⟨by decide, by decide, by decide⟩

/-- C9 (amended): on every valid config with no tunable pre-bound, the
documentation contains the three canned parameter blocks verbatim as they
appear in the source: wrapped across " * " comment lines, the globalFactor
block reading "kernel iterarions" (the source's spelling) with default
1.0. -/
theorem c9_amended (fs : String → Bool) (cfg : Config) (cp sv k iv ov f : String)
    (h1 : cfg.find "confFilePath" = some cp)
    (h2 : cfg.find "source" = some sv)
    (hfs : fs (resolveSource cp sv) = true)
    (h3 : cfg.find "kernel_name" = some k)
    (h4 : cfg.find "input_types" = some iv)
    (h5 : cfg.find "output_types" = some ov)
    (h6 : cfg.find "factory" = some f)
    (hls : cfg.find "local_size" = none)
    (hgf : cfg.find "global_factor" = none)
    (hpf : cfg.find "production_factor" = none) :
    strContains (loaderDoc fs cfg) GLOBAL_FACTOR_DESCRIPTION = true
    ∧ strContains (loaderDoc fs cfg) LOCAL_SIZE_DESCRIPTION = true
    ∧ strContains (loaderDoc fs cfg) PRODUCTION_FACTOR_DESCRIPTION = true := by
  have h := loader_ok fs cfg cp sv k iv ov f h1 h2 hfs h3 h4 h5 h6
  have hdoc : loaderDoc fs cfg
      = generateBlockDescription (faOf cfg cp sv k iv ov) (bdaOf cfg cp sv k ov) f := by
    simp [loaderDoc, h]
  rw [hdoc]
  have hfls : (faOf cfg cp sv k iv ov).optLocalSize = none := by simp [faOf, hls]
  have hfgf : (faOf cfg cp sv k iv ov).optGlobalFactor = none := by simp [faOf, hgf]
  have hfpf : (faOf cfg cp sv k iv ov).optProductionFactor = none := by simp [faOf, hpf]
  refine ⟨?_, ?_, ?_⟩
  · unfold strContains
    apply contains_doc_of_params
    simp only [generateParamsAndSetters, genGF_none _ hfgf, String.data_append]
    exact containsB_append_left _ (containsB_append_right _ (containsB_refl _))
  · unfold strContains
    apply contains_doc_of_params
    simp only [generateParamsAndSetters, genLS_none _ hfls, String.data_append]
    exact containsB_append_left _ (containsB_append_left _ (containsB_refl _))
  · unfold strContains
    apply contains_doc_of_params
    simp only [generateParamsAndSetters, genPF_none _ hfpf, String.data_append]
    exact containsB_append_right _ (containsB_refl _)

/-- Witness for C9 (amended) at the scenario-A configuration. -/
theorem c9_amended_witness :
    strContains (loaderDoc fsP cfgMin) GLOBAL_FACTOR_DESCRIPTION = true :=
  (c9_amended fsP cfgMin "/p/x.conf" "k.cl" "run" "float32" "float32" "/my/k"
    rfl rfl rfl rfl rfl rfl rfl rfl rfl rfl).1

/-- C9 (counterexample): the claimed "exact text" - a single flowed
sentence spelling "iterations" - does not occur in the documentation
generated for the minimal valid config: the source wraps the sentences
across comment lines and spells "iterarions". -/
theorem c9_counterexample :
    loaderSucceeded fsP cfgMin = true
    ∧ strContains (loaderDoc fsP cfgMin)
        "This factor controls the global size. The global size is the number of kernel iterations per call. Global size = number of input elements * global factor." = false
    ∧ strContains (loaderDoc fsP cfgMin) "kernel iterations" = false
    ∧ strContains (loaderDoc fsP cfgMin) "kernel iterarions" = true := by
  refine ⟨by decide, by decide, by decide, by decide⟩
